import Mathlib

/-!
Verification of the sandboxed filesystem toolkit (`filesystem.py`): the four
read-only operations `list_directory`, `read_file`, `search_files` and
`get_file_info`, embedded shallowly over an explicit filesystem tree model.

Modelling conventions:
* Paths are lists of segments (`List String`), measured from the filesystem
  root `/`.  The filesystem itself is a finite tree `Node` of directories and
  files; each file carries its raw bytes, the `stat`-reported size, the
  ISO-formatted modification time, the MIME type that `mimetypes.guess_type`
  would report for it, and a flag `readOk` telling whether `open()` succeeds
  (modelling OS-level read permission).  `size` is kept separate from
  `bytes.length` because the code's size ceiling is checked against `stat`
  alone, before any read.
* Python exceptions are embedded as the error type `Err`; every operation is a
  total function into `Except Err _`, mirroring the `try/except` boundary that
  converts any raised exception into the failure envelope.  The wall-clock
  `timestamp` envelope field is not modelled.
* Python string operations are re-implemented over `List Char` so that every
  definition evaluates by kernel reduction: `strLe` is code-point
  lexicographic comparison (Python `str` ordering), `strLower` is `str.lower`
  (ASCII range, which covers every string the operations lowercase),
  `infixOfB` is Python's substring test `in`, and `pySuffix` is
  `pathlib.PurePath.suffix`.
* `open(..., encoding="utf-8", errors="ignore")` is modelled by the
  incremental decoder `decodeIgnore` (invalid bytes dropped); reading binary
  files is modelled by `b64EncodeList`, the standard base64 encoding.
-/

/-! ### Python string primitives on character lists -/

/-- Code-point lexicographic comparison of character lists: the order Python
uses to compare `str` values (and hence the order of `list.sort`). -/
def charListLe : List Char → List Char → Bool
  | [], _ => true
  | _ :: _, [] => false
  | a :: as, b :: bs =>
    if a.toNat < b.toNat then true
    else if b.toNat < a.toNat then false
    else charListLe as bs

/-- Python `s <= t` on strings. -/
def strLe (s t : String) : Bool := charListLe s.toList t.toList

/-- Python `str.lower()` (ASCII case mapping, which covers the extension and
MIME strings the operations lowercase). -/
def strLower (s : String) : String := ⟨s.toList.map Char.toLower⟩

/-- Python substring containment `p in s` on character lists. -/
def infixOfB (p : List Char) : List Char → Bool
  | [] => p.isEmpty
  | c :: rest => p.isPrefixOf (c :: rest) || infixOfB p rest

/-- Python `sub in s` for strings. -/
def strContains (s sub : String) : Bool := infixOfB sub.toList s.toList

/-- `pathlib.PurePath.suffix` helper: index of the last `'.'` in the name. -/
def rfindDotAux : List Char → Nat → Option Nat → Option Nat
  | [], _, acc => acc
  | c :: rest, i, acc => rfindDotAux rest (i + 1) (if c = '.' then some i else acc)

/-- `pathlib.PurePath.suffix` of a file name: the extension from the last dot
on, empty for names with no dot, for dotfiles and for a trailing dot. -/
def pySuffix (name : String) : String :=
  let cs := name.toList
  match rfindDotAux cs 0 none with
  | some i => if 0 < i ∧ i < cs.length - 1 then ⟨cs.drop i⟩ else ""
  | none => ""

/-! ### base64 (Python `base64.b64encode` / `b64decode`) -/

def b64Alphabet : List Char :=
  "ABCDEFGHIJKLMNOPQRSTUVWXYZabcdefghijklmnopqrstuvwxyz0123456789+/".toList

def sextetChar (n : Nat) : Char := b64Alphabet.getD n 'A'

def charIdxIn (c : Char) : List Char → Nat
  | [] => 64
  | d :: rest => if d = c then 0 else 1 + charIdxIn c rest

/-- Index of a character in the base64 alphabet, `none` for non-alphabet
characters. -/
def charSextet (c : Char) : Option Nat :=
  let i := charIdxIn c b64Alphabet
  if i < 64 then some i else none

/-- base64 encoding of a byte sequence, three bytes to four characters with
`'='` padding. -/
def b64EncodeList : List Nat → List Char
  | a :: b :: c :: rest =>
    sextetChar (a / 4) :: sextetChar ((a % 4) * 16 + b / 16) ::
      sextetChar ((b % 16) * 4 + c / 64) :: sextetChar (c % 64) :: b64EncodeList rest
  | [a, b] => [sextetChar (a / 4), sextetChar ((a % 4) * 16 + b / 16),
      sextetChar ((b % 16) * 4), '=']
  | [a] => [sextetChar (a / 4), sextetChar ((a % 4) * 16), '=', '=']
  | [] => []

/-- base64 decoding, `none` on malformed input. -/
def b64DecodeList : List Char → Option (List Nat)
  | [] => some []
  | c0 :: c1 :: c2 :: c3 :: rest =>
    if c2 = '=' then
      if c3 = '=' ∧ rest = [] then
        match charSextet c0, charSextet c1 with
        | some s0, some s1 => some [s0 * 4 + s1 / 16]
        | _, _ => none
      else none
    else if c3 = '=' then
      if rest = [] then
        match charSextet c0, charSextet c1, charSextet c2 with
        | some s0, some s1, some s2 =>
          some [s0 * 4 + s1 / 16, (s1 % 16) * 16 + s2 / 4]
        | _, _, _ => none
      else none
    else
      match charSextet c0, charSextet c1, charSextet c2, charSextet c3,
          b64DecodeList rest with
      | some s0, some s1, some s2, some s3, some tail =>
        some ((s0 * 4 + s1 / 16) :: ((s1 % 16) * 16 + s2 / 4) ::
          ((s2 % 4) * 64 + s3) :: tail)
      | _, _, _, _, _ => none
  | _ => none

/-! ### UTF-8 decoding with `errors="ignore"` -/

/-- Is a byte a UTF-8 continuation byte? -/
def isCont (b : Nat) : Bool := 0x80 ≤ b && b < 0xC0

/-- State of the incremental UTF-8 decoder: either between characters, or
inside a multi-byte sequence with `k` continuation bytes still expected and
the partial code point `cp`. -/
inductive U8 where
  | clean
  | need (k : Nat) (cp : Nat)

/-- Start decoding one character at a lead byte. -/
def u8Start (b : Nat) : Option Char × U8 :=
  if b < 0x80 then (some (Char.ofNat b), .clean)
  else if 0xC2 ≤ b ∧ b ≤ 0xDF then (none, .need 1 (b - 0xC0))
  else if 0xE0 ≤ b ∧ b ≤ 0xEF then (none, .need 2 (b - 0xE0))
  else if 0xF0 ≤ b ∧ b ≤ 0xF4 then (none, .need 3 (b - 0xF0))
  else (none, .clean)

/-- One step of the incremental UTF-8 decoder; invalid bytes are dropped,
matching `errors="ignore"`. -/
def u8Step (st : List Char × U8) (b : Nat) : List Char × U8 :=
  match st with
  | (acc, .clean) =>
    (match u8Start b with
     | (some c, s) => (acc ++ [c], s)
     | (none, s) => (acc, s))
  | (acc, .need k cp) =>
    if isCont b then
      if k ≤ 1 then (acc ++ [Char.ofNat (cp * 64 + (b - 0x80))], .clean)
      else (acc, .need (k - 1) (cp * 64 + (b - 0x80)))
    else
      (match u8Start b with
       | (some c, s) => (acc ++ [c], s)
       | (none, s) => (acc, s))

/-- The characters produced by reading a byte sequence with
`open(..., encoding="utf-8", errors="ignore")`. -/
def decodeIgnore (bs : List Nat) : List Char := (bs.foldl u8Step ([], .clean)).1

/-- `len(f.readlines())` over decoded text: the number of newline-delimited
records, counting a trailing unterminated record. -/
def pyLineCount (cs : List Char) : Nat :=
  cs.count '\n' + (if cs ≠ [] ∧ cs.getLast? ≠ some '\n' then 1 else 0)

/-! ### Filesystem model -/

/-- Per-file model data: raw bytes, `stat` metadata, the MIME type
`mimetypes.guess_type` reports, and whether `open()` succeeds. -/
structure FileData where
  bytes : List Nat
  size : Nat
  mtime : String
  mime : Option String
  readOk : Bool
deriving DecidableEq

/-- Per-directory metadata: `stat` modification time and the result of
`mimetypes.guess_type` on the directory's path (a directory named like a file
can still get a MIME guess). -/
structure DirData where
  mtime : String
  mime : Option String := none
deriving DecidableEq

/-- A filesystem tree: files and directories with named children. -/
inductive Node where
  | file (f : FileData)
  | dir (d : DirData) (entries : List (String × Node))

/-- Follow a segment path down the tree. `none` models a path that does not
exist. -/
def lookup : List String → Node → Option Node
  | [], n => some n
  | _ :: _, .file _ => none
  | s :: rest, .dir _ es =>
    match es.find? (fun e => e.1 == s) with
    | some e => lookup rest e.2
    | none => none

/-- All files in the subtree rooted at a directory entry list, with their
absolute segment paths: the traversal underlying `Path.rglob`. -/
def recFiles (base : List String) : Node → List (List String × FileData)
  | .file f => [(base, f)]
  | .dir _ es => go base es
where
  go (base : List String) : List (String × Node) → List (List String × FileData)
  | [] => []
  | e :: rest => recFiles (base ++ [e.1]) e.2 ++ go base rest

/-- The direct file children of a directory, with their absolute segment
paths: the candidates of a one-level `Path.glob`. -/
def childFiles (base : List String) (es : List (String × Node)) :
    List (List String × FileData) :=
  es.filterMap (fun e => match e.2 with
    | .file f => some (base ++ [e.1], f)
    | .dir _ _ => none)

/-! ### Errors and path confinement -/

/-- The exceptions the operations raise, by raise site.  `tooLarge`,
`notAFile` and `invalidArgument` are all Python `ValueError`s distinguished by
message; `accessDenied` is the confinement failure of `get_safe_path`;
`osError` models an `OSError` escaping from `open()`. -/
inductive Err where
  | accessDenied
  | notFound (path : String)
  | notADirectory (path : String)
  | notAFile (path : String)
  | tooLarge (size : Nat)
  | invalidArgument
  | osError
deriving DecidableEq

/-- The `error_type` envelope field: the Python exception class name. -/
def Err.error_type : Err → String
  | .accessDenied => "AccessDenied"
  | .notFound _ => "FileNotFoundError"
  | .notADirectory _ => "NotADirectoryError"
  | .notAFile _ => "ValueError"
  | .tooLarge _ => "ValueError"
  | .invalidArgument => "ValueError"
  | .osError => "OSError"

/-- Maximum readable file size: `10 * 1024 * 1024` bytes. -/
def MAX_FILE_SIZE : Nat := 10 * 1024 * 1024

/-- The `error` envelope field: the exception message. -/
def Err.message : Err → String
  | .accessDenied => "Access denied"
  | .notFound p => "Path not found: " ++ p
  | .notADirectory p => "Path is not a directory: " ++ p
  | .notAFile p => "Path is not a file: " ++ p
  | .tooLarge n => "File too large (" ++ toString n ++ " bytes). Maximum size is " ++
      toString MAX_FILE_SIZE ++ " bytes."
  | .invalidArgument => "Search term is required"
  | .osError => "OS error"

/-- Split a path string on `'/'` (Python `str.split("/")` semantics). -/
def splitSlashAux : List Char → List Char → List String
  | [], acc => [⟨acc.reverse⟩]
  | '/' :: rest, acc => (⟨acc.reverse⟩ : String) :: splitSlashAux rest []
  | c :: rest, acc => splitSlashAux rest (c :: acc)

def splitPath (p : String) : List String := splitSlashAux p.toList []

def isAbsolute (p : String) : Bool :=
  match p.toList with
  | '/' :: _ => true
  | _ => false

/-- Normalization step: drop empty and `"."` segments, let `".."` pop the last
segment. -/
def normStep (acc : List String) (seg : String) : List String :=
  if seg = "" ∨ seg = "." then acc
  else if seg = ".." then acc.dropLast
  else acc ++ [seg]

def normSegs (segs : List String) : List String := segs.foldl normStep []

/-- Modelled from the spec: the path resolution inside `get_safe_path`, which
lives in the repository's `config` module and is not among the given sources.
Per the spec (§4.1): empty input resolves to ProjectRoot itself; relative
input is joined to ProjectRoot and normalized; absolute input is normalized
directly.  (Symlink resolution is not modelled: the tree model has no
symlinks.) -/
def resolvePath (root : List String) (p : String) : List String :=
  if p = "" then root
  else if isAbsolute p then normSegs (splitPath p)
  else normSegs (root ++ splitPath p)

/-- Modelled from the spec: `get_safe_path` from the repository's `config`
module (not among the given sources).  Any normalized result that is not
ProjectRoot itself and not a descendant of it fails with the AccessDenied
condition, before any filesystem call. -/
def get_safe_path (root : List String) (p : String) : Except Err (List String) :=
  let r := resolvePath root p
  if root.isPrefixOf r then .ok r else .error .accessDenied

/-! ### Text classification tables (from `read_file`) -/

/-- The fixed list of textual `application/*` MIME types. -/
def textMimes : List String :=
  ["application/json", "application/xml", "application/javascript",
   "application/x-python", "application/x-c++src"]

/-- MIME-type text heuristic: type starts with `text/` or is in the fixed
textual-application list.  Shared by `read_file` and `get_file_info`. -/
def isTextMime : Option String → Bool
  | none => false
  | some m => "text/".toList.isPrefixOf m.toList || textMimes.contains m

/-- The extension allow-list of `read_file`. -/
def text_extensions : List String :=
  [".txt", ".md", ".markdown", ".py", ".cpp", ".h", ".hpp", ".c", ".cc",
   ".java", ".cs", ".go", ".rs", ".js", ".ts", ".jsx", ".tsx", ".html",
   ".htm", ".css", ".scss", ".less", ".xml", ".json", ".yaml", ".yml",
   ".toml", ".ini", ".cfg", ".conf", ".php", ".rb", ".pl", ".pm", ".lua",
   ".sql", ".sh", ".bash", ".bat", ".cmd", ".ps1", ".asm", ".s", ".v",
   ".sv", ".vhd", ".vhdl", ".tex", ".rst", ".log", ".csv", ".tsv",
   ".proto", ".thrift", ".gradle", ".m", ".mm", ".swift", ".kt", ".kts",
   ".dart", ".elm", ".erl", ".ex", ".exs", ".fs", ".fsx", ".fsi", ".hs",
   ".lhs", ".ml", ".mli", ".nim", ".pas", ".pp", ".r", ".rmd", ".scala",
   ".vb", ".vbs", ".zig", ".uproject", ".uplugin", ".Build.cs", ".Target.cs"]

/-! ### Result shapes -/

/-- The segment path rendered as an absolute path string. -/
def segString (segs : List String) : String := "/" ++ String.intercalate "/" segs

/-- `str(safe_path.relative_to(project_root))` for a path under the root. -/
def relString (root segs : List String) : String :=
  let rel := segs.drop root.length
  if rel = [] then "." else String.intercalate "/" rel

/-- The last path segment: `pathlib.PurePath.name`. -/
def nameOf (segs : List String) : String := (segs.getLast?).getD ""

/-- One entry of a `files[]` array (listing and search results). -/
structure FileEntry where
  name : String
  path : String
  relative_path : String
  type : String
  size : Option Nat
  modified_time : Option String
  mime_type : Option String
  extension : Option String
  line_count : Option Nat
deriving DecidableEq

/-- Success payload of `list_directory`. -/
structure ListResult where
  path : String
  relative_path : String
  files : List FileEntry
  subdirectories : List String
  total_files : Nat
  total_directories : Nat
deriving DecidableEq

/-- Success payload of `read_file`. -/
structure ReadResult where
  path : String
  relative_path : String
  content : String
  encoding : String
  line_count : Nat
  size : Nat
  mime_type : String
  is_text : Bool
deriving DecidableEq

/-- Success payload of `search_files`. -/
structure SearchResult where
  search_term : String
  path : String
  files : List FileEntry
  total_matches : Nat
  max_results : Nat
  recursive : Bool
deriving DecidableEq

/-- Success payload of `get_file_info`. -/
structure InfoResult where
  path : String
  relative_path : String
  name : String
  type : String
  size : Option Nat
  modified_time : String
  mime_type : Option String
  extension : Option String
  line_count : Option Nat
deriving DecidableEq

/-! ### Sorting (Python `list.sort` is a stable sort; `List.insertionSort`
with the same key order is stable too, hence produces the same list) -/

/-- Order of `files.sort(key=lambda x: x["name"])` in `list_directory`. -/
def entryNameLe (a b : FileEntry) : Prop := strLe a.name b.name = true

instance : DecidableRel entryNameLe := fun a b => by
  unfold entryNameLe; infer_instance

/-- Order of `subdirectories.sort()`. -/
def strLeP (a b : String) : Prop := strLe a b = true

instance : DecidableRel strLeP := fun a b => by
  unfold strLeP; infer_instance

/-- Sort key of `search_files`: `x["modified_time"] or ""`. -/
def mtimeKey (e : FileEntry) : String := (e.modified_time).getD ""

/-- Order of `matches.sort(key=..., reverse=True)` in `search_files`:
modified-time descending. -/
def entryMtimeGe (a b : FileEntry) : Prop := strLe (mtimeKey b) (mtimeKey a) = true

instance : DecidableRel entryMtimeGe := fun a b => by
  unfold entryMtimeGe; infer_instance

/-! ### The four operations -/

/-- The `FileEntry` built for one child during `list_directory` (its
`line_count` is always left `None`). -/
def mkListEntry (root sp : List String) (name : String) (f : FileData) : FileEntry :=
  { name := name
    path := segString (sp ++ [name])
    relative_path := relString root (sp ++ [name])
    type := "file"
    size := some f.size
    modified_time := some f.mtime
    mime_type := f.mime
    extension := some (strLower (pySuffix name))
    line_count := none }

/-- Does a child pass the `file_extensions` filter of `list_directory` /
`search_files`?  Python tests `ext.lower() in file_ext` — substring
containment in the lowercased suffix, not equality. -/
def extFilterPass (file_extensions : List String) (name : String) : Bool :=
  file_extensions.any (fun e => strContains (strLower (pySuffix name)) (strLower e))

/-- `list_directory(path, file_extensions)` (`filesystem.py`). -/
def list_directory (root : List String) (fs : Node) (path : String)
    (file_extensions : List String) : Except Err ListResult :=
  match get_safe_path root path with
  | .error e => .error e
  | .ok sp =>
    match lookup sp fs with
    | none => .error (.notFound (segString sp))
    | some (.file _) => .error (.notADirectory (segString sp))
    | some (.dir _ es) =>
      let files := es.filterMap (fun e => match e.2 with
        | .dir _ _ => none
        | .file f =>
          if file_extensions ≠ [] ∧ ¬ extFilterPass file_extensions e.1 then none
          else some (mkListEntry root sp e.1 f))
      let subdirs := es.filterMap (fun e => match e.2 with
        | .dir _ _ => some e.1
        | .file _ => none)
      let filesSorted := List.insertionSort entryNameLe files
      let subdirsSorted := List.insertionSort strLeP subdirs
      .ok { path := segString sp
            relative_path := relString root sp
            files := filesSorted
            subdirectories := subdirsSorted
            total_files := filesSorted.length
            total_directories := subdirsSorted.length }

/-- `read_file(path)` (`filesystem.py`).  The `except UnicodeDecodeError`
fallback to Latin-1 in the source is unreachable: reading with
`errors="ignore"` never raises `UnicodeDecodeError`, so the text branch is the
ignore-mode decode directly. -/
def read_file (root : List String) (fs : Node) (path : String) :
    Except Err ReadResult :=
  match get_safe_path root path with
  | .error e => .error e
  | .ok sp =>
    match lookup sp fs with
    | none => .error (.notFound (segString sp))
    | some (.dir _ _) => .error (.notAFile (segString sp))
    | some (.file f) =>
      if MAX_FILE_SIZE < f.size then .error (.tooLarge f.size)
      else
        let mime := f.mime
        let is_text := isTextMime mime ||
          text_extensions.contains (strLower (pySuffix (nameOf sp)))
        if is_text then
          if f.readOk then
            let cs := decodeIgnore f.bytes
            .ok { path := segString sp
                  relative_path := relString root sp
                  content := ⟨cs⟩
                  encoding := "text"
                  line_count := pyLineCount cs
                  size := f.size
                  mime_type := mime.getD "application/octet-stream"
                  is_text := true }
          else .error .osError
        else
          if f.readOk then
            .ok { path := segString sp
                  relative_path := relString root sp
                  content := ⟨b64EncodeList f.bytes⟩
                  encoding := "base64"
                  line_count := 0
                  size := f.size
                  mime_type := mime.getD "application/octet-stream"
                  is_text := false }
          else .error .osError

/-- The `FileEntry` built for one match during `search_files`. -/
def mkSearchEntry (root : List String) (c : List String × FileData) : FileEntry :=
  { name := nameOf c.1
    path := segString c.1
    relative_path := relString root c.1
    type := "file"
    size := some c.2.size
    modified_time := some c.2.mtime
    mime_type := c.2.mime
    extension := some (strLower (pySuffix (nameOf c.1)))
    line_count := none }

/-- The match-accumulation loop of `search_files`: append a match when the
lowercased term is a substring of the lowercased name, and break as soon as
the accumulated count reaches `max_results` (the break test runs after every
candidate, matching or not). -/
def searchLoop (root : List String) (termLower : String) (maxResults : Nat) :
    List (List String × FileData) → List FileEntry → List FileEntry
  | [], acc => acc
  | c :: rest, acc =>
    let acc' := if strContains (strLower (nameOf c.1)) termLower
      then acc ++ [mkSearchEntry root c] else acc
    if maxResults ≤ acc'.length then acc'
    else searchLoop root termLower maxResults rest acc'

/-- The candidate files of `search_files`: the confined path itself when it is
a file; otherwise the one-level (`glob("*.*")`) or recursive
(`rglob("*.*")`) enumeration, which only yields names containing a dot, with
non-files discarded. -/
def searchCandidates (sp : List String) (n : Node) (recursive : Bool) :
    List (List String × FileData) :=
  match n with
  | .file f => [(sp, f)]
  | .dir d es =>
    let globbed := if recursive then recFiles sp (.dir d es) else childFiles sp es
    globbed.filter (fun c => (nameOf c.1).toList.contains '.')

/-- `search_files(path, search_term, file_extensions, recursive, max_results)`
(`filesystem.py`). -/
def search_files (root : List String) (fs : Node) (path : String)
    (search_term : String) (file_extensions : List String) (recursive : Bool)
    (max_results : Nat) : Except Err SearchResult :=
  if search_term = "" then .error .invalidArgument
  else
    match get_safe_path root path with
    | .error e => .error e
    | .ok sp =>
      match lookup sp fs with
      | none => .error (.notFound (segString sp))
      | some n =>
        let cands := searchCandidates sp n recursive
        let cands := if file_extensions ≠ [] then
            cands.filter (fun c => extFilterPass file_extensions (nameOf c.1))
          else cands
        let found := searchLoop root (strLower search_term) max_results cands []
        let sorted := List.insertionSort entryMtimeGe found
        .ok { search_term := search_term
              path := segString sp
              files := sorted
              total_matches := sorted.length
              max_results := max_results
              recursive := recursive }

/-- `get_file_info(path)` (`filesystem.py`).  For files, a line count is
attempted only when the MIME heuristic classifies the file as text (the
extension allow-list of `read_file` is not consulted); a failing `open()` is
swallowed and reported as an absent line count. -/
def get_file_info (root : List String) (fs : Node) (path : String) :
    Except Err InfoResult :=
  match get_safe_path root path with
  | .error e => .error e
  | .ok sp =>
    match lookup sp fs with
    | none => .error (.notFound (segString sp))
    | some (.dir d _) =>
      .ok { path := segString sp
            relative_path := relString root sp
            name := nameOf sp
            type := "directory"
            size := none
            modified_time := d.mtime
            mime_type := d.mime
            extension := none
            line_count := none }
    | some (.file f) =>
      .ok { path := segString sp
            relative_path := relString root sp
            name := nameOf sp
            type := "file"
            size := some f.size
            modified_time := f.mtime
            mime_type := f.mime
            extension := some (strLower (pySuffix (nameOf sp)))
            line_count :=
              if isTextMime f.mime then
                if f.readOk then some (pyLineCount (decodeIgnore f.bytes))
                else none
              else none }

/-! ### Concrete fixtures used by the witnesses -/

/-- A concrete project root for witnesses: `/home/proj`. -/
def rootFx : List String := ["home", "proj"]

/-- A small UTF-8 text file (`hi\n`). -/
def fdText : FileData :=
  { bytes := [0x68, 0x69, 0x0A], size := 3, mtime := "2024-01-02T03:04:05",
    mime := some "text/plain", readOk := true }

/-- A `.txt` file whose bytes are not valid UTF-8. -/
def fdBadUtf : FileData :=
  { bytes := [0xFF, 0x61], size := 2, mtime := "2024-01-02T03:04:06",
    mime := none, readOk := true }

/-- A binary file. -/
def fdBin : FileData :=
  { bytes := [0, 255, 16, 7], size := 4, mtime := "2024-03-04T05:06:07",
    mime := some "application/octet-stream", readOk := true }

/-- A file whose `stat` size exceeds the 10 MiB ceiling. -/
def fdBig : FileData :=
  { bytes := [], size := 10485761, mtime := "2024-01-01T00:00:00",
    mime := some "text/plain", readOk := true }

/-- A file whose name contains no dot. -/
def fdNoDot : FileData :=
  { bytes := [0x61], size := 1, mtime := "2020-05-05T05:05:05",
    mime := none, readOk := true }

/-- The witness filesystem tree. -/
def fsFx : Node :=
  .dir ⟨"2024-01-01T00:00:00", none⟩
    [("home", .dir ⟨"2024-01-01T00:00:00", none⟩
      [("proj", .dir ⟨"2024-01-01T00:00:00", none⟩
        [("a.txt", .file fdText),
         ("bad.txt", .file fdBadUtf),
         ("img.bin", .file fdBin),
         ("big.txt", .file fdBig),
         ("README", .file fdNoDot),
         ("sub", .dir ⟨"2024-01-01T00:00:00", none⟩ [("b.md", .file fdText)])])])]

/-- The `FileEntry` that listing or searching `sub` produces for `b.md`. -/
def entryBmd : FileEntry :=
  { name := "b.md"
    path := "/home/proj/sub/b.md"
    relative_path := "sub/b.md"
    type := "file"
    size := some 3
    modified_time := some "2024-01-02T03:04:05"
    mime_type := some "text/plain"
    extension := some ".md"
    line_count := none }

/-- The result of searching `sub` for `"b"` in the witness tree. -/
def rSearchFx : SearchResult :=
  { search_term := "b"
    path := "/home/proj/sub"
    files := [entryBmd]
    total_matches := 1
    max_results := 50
    recursive := false }

/-- The result of listing `sub` in the witness tree. -/
def rListFx : ListResult :=
  { path := "/home/proj/sub"
    relative_path := "sub"
    files := [entryBmd]
    subdirectories := []
    total_files := 1
    total_directories := 0 }

/-! ### Order lemmas for the sort relations -/

theorem charListLe_total : ∀ as bs, charListLe as bs = true ∨ charListLe bs as = true := by
  intro as
  induction as with
  | nil => intro bs; left; rfl
  | cons a as ih =>
    intro bs
    cases bs with
    | nil => right; rfl
    | cons b bs =>
      simp only [charListLe]
      rcases Nat.lt_trichotomy a.toNat b.toNat with h | h | h
      · left; simp [h]
      · have h1 : ¬ a.toNat < b.toNat := by omega
        have h2 : ¬ b.toNat < a.toNat := by omega
        simp [h1, h2]
        exact ih bs
      · right; simp [h]

theorem charListLe_trans : ∀ as bs cs, charListLe as bs = true → charListLe bs cs = true →
    charListLe as cs = true := by
  intro as
  induction as with
  | nil => intro bs cs _ _; rfl
  | cons a as ih =>
    intro bs cs h1 h2
    match bs, cs with
    | [], _ => simp [charListLe] at h1
    | b :: bs, [] => simp [charListLe] at h2
    | b :: bs, c :: cs =>
      simp only [charListLe] at h1 h2 ⊢
      rcases Nat.lt_trichotomy a.toNat b.toNat with hab | hab | hab
      · rcases Nat.lt_trichotomy b.toNat c.toNat with hbc | hbc | hbc
        · simp [show a.toNat < c.toNat from by omega]
        · simp [show a.toNat < c.toNat from by omega]
        · rw [if_neg (by omega), if_pos (by omega)] at h2
          exact absurd h2 Bool.false_ne_true
      · rw [if_neg (by omega), if_neg (by omega)] at h1
        rcases Nat.lt_trichotomy b.toNat c.toNat with hbc | hbc | hbc
        · rw [if_pos (by omega)]
        · rw [if_neg (by omega), if_neg (by omega)] at h2
          rw [if_neg (by omega), if_neg (by omega)]
          exact ih bs cs h1 h2
        · rw [if_neg (by omega), if_pos (by omega)] at h2
          exact absurd h2 Bool.false_ne_true
      · rw [if_neg (by omega), if_pos (by omega)] at h1
        exact absurd h1 Bool.false_ne_true

instance : IsTotal FileEntry entryNameLe :=
  ⟨fun a b => charListLe_total a.name.toList b.name.toList⟩

instance : IsTrans FileEntry entryNameLe :=
  ⟨fun a b c h1 h2 => charListLe_trans a.name.toList b.name.toList c.name.toList h1 h2⟩

instance : IsTotal String strLeP :=
  ⟨fun a b => charListLe_total a.toList b.toList⟩

instance : IsTrans String strLeP :=
  ⟨fun a b c h1 h2 => charListLe_trans a.toList b.toList c.toList h1 h2⟩

instance : IsTotal FileEntry entryMtimeGe :=
  ⟨fun a b => charListLe_total (mtimeKey b).toList (mtimeKey a).toList⟩

instance : IsTrans FileEntry entryMtimeGe :=
  ⟨fun a b c h1 h2 => charListLe_trans (mtimeKey c).toList (mtimeKey b).toList
    (mtimeKey a).toList h2 h1⟩

/-! ### base64 roundtrip -/

theorem charSextet_sextetChar : ∀ n : Fin 64, charSextet (sextetChar n.val) = some n.val := by
  decide

theorem sextetChar_ne_pad : ∀ n : Fin 64, sextetChar n.val ≠ '=' := by decide

theorem charSextet_sextetChar_of_lt (n : Nat) (h : n < 64) :
    charSextet (sextetChar n) = some n :=
  charSextet_sextetChar ⟨n, h⟩

theorem sextetChar_ne_pad_of_lt (n : Nat) (h : n < 64) : sextetChar n ≠ '=' :=
  sextetChar_ne_pad ⟨n, h⟩

theorem b64Decode_chunk (s0 s1 s2 s3 : Nat) (h0 : s0 < 64) (h1 : s1 < 64)
    (h2 : s2 < 64) (h3 : s3 < 64) (rest : List Char) :
    b64DecodeList (sextetChar s0 :: sextetChar s1 :: sextetChar s2 ::
        sextetChar s3 :: rest) =
      (b64DecodeList rest).map
        (fun tail => (s0 * 4 + s1 / 16) :: ((s1 % 16) * 16 + s2 / 4) ::
          ((s2 % 4) * 64 + s3) :: tail) := by
  simp only [b64DecodeList]
  rw [if_neg (sextetChar_ne_pad_of_lt s2 h2)]
  rw [if_neg (sextetChar_ne_pad_of_lt s3 h3)]
  rw [charSextet_sextetChar_of_lt s0 h0, charSextet_sextetChar_of_lt s1 h1]
  rw [charSextet_sextetChar_of_lt s2 h2, charSextet_sextetChar_of_lt s3 h3]
  cases b64DecodeList rest <;> rfl

theorem b64Decode_end2 (s0 s1 s2 : Nat) (h0 : s0 < 64) (h1 : s1 < 64) (h2 : s2 < 64) :
    b64DecodeList [sextetChar s0, sextetChar s1, sextetChar s2, '='] =
      some [s0 * 4 + s1 / 16, (s1 % 16) * 16 + s2 / 4] := by
  simp only [b64DecodeList]
  rw [if_neg (sextetChar_ne_pad_of_lt s2 h2)]
  rw [if_pos trivial, if_pos trivial]
  rw [charSextet_sextetChar_of_lt s0 h0, charSextet_sextetChar_of_lt s1 h1]
  rw [charSextet_sextetChar_of_lt s2 h2]

theorem b64Decode_end1 (s0 s1 : Nat) (h0 : s0 < 64) (h1 : s1 < 64) :
    b64DecodeList [sextetChar s0, sextetChar s1, '=', '='] =
      some [s0 * 4 + s1 / 16] := by
  simp only [b64DecodeList]
  rw [if_pos trivial, if_pos ⟨trivial, trivial⟩]
  rw [charSextet_sextetChar_of_lt s0 h0, charSextet_sextetChar_of_lt s1 h1]

theorem b64_roundtrip : ∀ bs : List Nat, (∀ b ∈ bs, b < 256) →
    b64DecodeList (b64EncodeList bs) = some bs := by
  intro bs
  induction bs using b64EncodeList.induct with
  | case1 a b c rest ih =>
    intro h
    have ha : a < 256 := h a (by simp)
    have hb : b < 256 := h b (by simp)
    have hc : c < 256 := h c (by simp)
    simp only [b64EncodeList]
    rw [b64Decode_chunk _ _ _ _ (by omega) (by omega) (by omega) (by omega)]
    rw [ih (fun x hx => h x (by simp [hx]))]
    simp only [Option.map_some', Option.some.injEq, List.cons.injEq]
    refine ⟨by omega, by omega, by omega, trivial⟩
  | case2 a b =>
    intro h
    have ha : a < 256 := h a (by simp)
    have hb : b < 256 := h b (by simp)
    simp only [b64EncodeList]
    rw [b64Decode_end2 _ _ _ (by omega) (by omega) (by omega)]
    simp only [Option.some.injEq, List.cons.injEq, and_true]
    exact ⟨by omega, by omega⟩
  | case3 a =>
    intro h
    have ha : a < 256 := h a (by simp)
    simp only [b64EncodeList]
    rw [b64Decode_end1 _ _ (by omega) (by omega)]
    simp only [Option.some.injEq, List.cons.injEq, and_true]
    omega
  | case4 =>
    intro _
    rfl

/-! ### Properties of the search loop -/

theorem searchLoop_length_le (root : List String) (term : String) (maxr : Nat) :
    ∀ (cands : List (List String × FileData)) (acc : List FileEntry),
      (acc.length < maxr ∨ acc.length = 0) →
      (searchLoop root term maxr cands acc).length ≤ max 1 maxr := by
  intro cands
  induction cands with
  | nil =>
    intro acc h
    simp only [searchLoop]
    omega
  | cons c rest ih =>
    intro acc h
    simp only [searchLoop]
    by_cases hm : strContains (strLower (nameOf c.1)) term = true
    · rw [if_pos hm]
      by_cases hb : maxr ≤ (acc ++ [mkSearchEntry root c]).length
      · rw [if_pos hb]
        simp only [List.length_append, List.length_singleton]
        omega
      · rw [if_neg hb]
        refine ih _ (Or.inl ?_)
        simp only [List.length_append, List.length_singleton] at hb ⊢
        omega
    · rw [if_neg hm]
      by_cases hb : maxr ≤ acc.length
      · rw [if_pos hb]; omega
      · rw [if_neg hb]
        exact ih acc (Or.inl (by omega))

theorem searchLoop_mem (root : List String) (term : String) (maxr : Nat) :
    ∀ (cands : List (List String × FileData)) (acc : List FileEntry) (e : FileEntry),
      e ∈ searchLoop root term maxr cands acc →
      e ∈ acc ∨ ∃ c, c ∈ cands ∧ e = mkSearchEntry root c := by
  intro cands
  induction cands with
  | nil =>
    intro acc e he
    simp only [searchLoop] at he
    exact Or.inl he
  | cons c rest ih =>
    intro acc e he
    simp only [searchLoop] at he
    by_cases hm : strContains (strLower (nameOf c.1)) term = true
    · rw [if_pos hm] at he
      split at he
      · rcases List.mem_append.1 he with h | h
        · exact Or.inl h
        · exact Or.inr ⟨c, List.mem_cons_self c rest, List.mem_singleton.1 h⟩
      · rcases ih _ e he with h | ⟨c', hc', hec'⟩
        · rcases List.mem_append.1 h with h' | h'
          · exact Or.inl h'
          · exact Or.inr ⟨c, List.mem_cons_self c rest, List.mem_singleton.1 h'⟩
        · exact Or.inr ⟨c', List.mem_cons_of_mem c hc', hec'⟩
    · rw [if_neg hm] at he
      split at he
      · exact Or.inl he
      · rcases ih _ e he with h | ⟨c', hc', hec'⟩
        · exact Or.inl h
        · exact Or.inr ⟨c', List.mem_cons_of_mem c hc', hec'⟩

theorem searchLoop_single (root : List String) (term : String) (maxr : Nat)
    (c : List String × FileData)
    (hm : strContains (strLower (nameOf c.1)) term = true) :
    searchLoop root term maxr [c] [] = [mkSearchEntry root c] := by
  simp only [searchLoop, if_pos hm, List.nil_append]
  split
  · rfl
  · rfl

theorem searchCandidates_dir_dot (sp : List String) (d : DirData)
    (es : List (String × Node)) (rec : Bool) :
    ∀ c ∈ searchCandidates sp (.dir d es) rec,
      (nameOf c.1).toList.contains '.' = true := by
  intro c hc
  simp only [searchCandidates] at hc
  exact (List.mem_filter.1 hc).2

/-! ### Claim theorems -/

/-- C1: for every caller-supplied path whose normalization escapes
ProjectRoot, each of the four operations returns the AccessDenied failure,
and it does so before any filesystem access: the conclusion holds for every
filesystem `fs`, so the result cannot depend on any read or stat.  (For
`search_files` the search term must be non-empty, since the empty-term check
precedes path confinement — claim C9.) -/
theorem claim_C1_access_denied (root : List String) (p : String)
    (h : root.isPrefixOf (resolvePath root p) = false) (fs : Node)
    (file_extensions : List String) (search_term : String) (recursive : Bool)
    (max_results : Nat) (hterm : search_term ≠ "") :
    list_directory root fs p file_extensions = .error .accessDenied ∧
    read_file root fs p = .error .accessDenied ∧
    search_files root fs p search_term file_extensions recursive max_results =
      .error .accessDenied ∧
    get_file_info root fs p = .error .accessDenied := by
  have hgp : get_safe_path root p = .error .accessDenied := by
    simp only [get_safe_path]
    rw [if_neg (by simp [h])]
  refine ⟨?_, ?_, ?_, ?_⟩
  · simp only [list_directory, hgp]
  · simp only [read_file, hgp]
  · simp only [search_files, if_neg hterm, hgp]
  · simp only [get_file_info, hgp]

theorem claim_C1_witness :
    list_directory rootFx fsFx "../../etc/passwd" [] = .error .accessDenied ∧
    read_file rootFx fsFx "../../etc/passwd" = .error .accessDenied ∧
    search_files rootFx fsFx "../../etc/passwd" "x" [] false 50 =
      .error .accessDenied ∧
    get_file_info rootFx fsFx "../../etc/passwd" = .error .accessDenied :=
  claim_C1_access_denied rootFx "../../etc/passwd" (by decide) fsFx [] "x" false 50
    (by decide)

/-- C2: a file whose `stat`-reported size exceeds 10 MiB is rejected with the
TooLarge condition; the file data `f` (in particular its bytes) is arbitrary,
so the rejection depends on the stat size alone and no content is read. -/
theorem claim_C2_too_large (root : List String) (fs : Node) (p : String)
    (sp : List String) (f : FileData)
    (h1 : get_safe_path root p = .ok sp)
    (h2 : lookup sp fs = some (.file f))
    (h3 : MAX_FILE_SIZE < f.size) :
    read_file root fs p = .error (.tooLarge f.size) := by
  simp only [read_file, h1, h2, if_pos h3]

theorem claim_C2_witness :
    read_file rootFx fsFx "big.txt" = .error (.tooLarge 10485761) :=
  claim_C2_too_large rootFx fsFx "big.txt" ["home", "proj", "big.txt"] fdBig
    rfl rfl (by decide)

/-- C9: an empty search term fails with the invalid-argument `ValueError`
before path confinement: the result is the same for every path, including
ones that escape ProjectRoot, so the error is never AccessDenied. -/
theorem claim_C9_empty_term (root : List String) (fs : Node) (p : String)
    (file_extensions : List String) (recursive : Bool) (max_results : Nat) :
    search_files root fs p "" file_extensions recursive max_results =
      .error .invalidArgument := by
  simp [search_files]

/-- C8: each of the four operations is a total function whose result is
either a success payload or an error of the `Err` taxonomy — the embedding of
the `try/except` boundary that converts every exception into the uniform
failure envelope (`success: false`, `error := Err.message`,
`error_type := Err.error_type`). -/
theorem claim_C8_total_envelope (root : List String) (fs : Node) (p : String)
    (file_extensions : List String) (search_term : String) (recursive : Bool)
    (max_results : Nat) :
    ((∃ v, list_directory root fs p file_extensions = .ok v) ∨
      (∃ e, list_directory root fs p file_extensions = .error e)) ∧
    ((∃ v, read_file root fs p = .ok v) ∨
      (∃ e, read_file root fs p = .error e)) ∧
    ((∃ v, search_files root fs p search_term file_extensions recursive
        max_results = .ok v) ∨
      (∃ e, search_files root fs p search_term file_extensions recursive
        max_results = .error e)) ∧
    ((∃ v, get_file_info root fs p = .ok v) ∨
      (∃ e, get_file_info root fs p = .error e)) := by
  refine ⟨?_, ?_, ?_, ?_⟩
  · cases h : list_directory root fs p file_extensions with
    | ok v => exact Or.inl ⟨v, rfl⟩
    | error e => exact Or.inr ⟨e, rfl⟩
  · cases h : read_file root fs p with
    | ok v => exact Or.inl ⟨v, rfl⟩
    | error e => exact Or.inr ⟨e, rfl⟩
  · cases h : search_files root fs p search_term file_extensions recursive
        max_results with
    | ok v => exact Or.inl ⟨v, rfl⟩
    | error e => exact Or.inr ⟨e, rfl⟩
  · cases h : get_file_info root fs p with
    | ok v => exact Or.inl ⟨v, rfl⟩
    | error e => exact Or.inr ⟨e, rfl⟩

/-- C4: for a file, `get_file_info` computes a line count exactly when the
MIME heuristic `isTextMime` classifies it as text — the extension allow-list
`text_extensions` plays no role (the statement holds for every file name and
extension) — and a failing `open()` (`readOk = false`) is swallowed into an
absent line count rather than an operation error. -/
theorem claim_C4_info_line_count (root : List String) (fs : Node) (p : String)
    (sp : List String) (f : FileData)
    (h1 : get_safe_path root p = .ok sp)
    (h2 : lookup sp fs = some (.file f)) :
    (get_file_info root fs p).map (fun r => (r.type, r.line_count)) =
      .ok ("file",
        if isTextMime f.mime then
          if f.readOk then some (pyLineCount (decodeIgnore f.bytes)) else none
        else none) := by
  simp only [get_file_info, h1, h2, Except.map]

theorem claim_C4_witness :
    (get_file_info rootFx fsFx "a.txt").map (fun r => (r.type, r.line_count)) =
      .ok ("file",
        if isTextMime fdText.mime then
          if fdText.readOk then some (pyLineCount (decodeIgnore fdText.bytes))
          else none
        else none) :=
  claim_C4_info_line_count rootFx fsFx "a.txt" ["home", "proj", "a.txt"] fdText
    rfl rfl

/-- C6: a readable file whose lowercased suffix is in the extension
allow-list is classified text and read successfully with
`encoding = "text"`, for arbitrary bytes — in particular for bytes that are
not valid UTF-8 (ignore-mode decoding never fails, so the Latin-1 fallback is
never taken and the base64 carve-out never occurs). -/
theorem claim_C6_text_ext_reads_text (root : List String) (fs : Node)
    (p : String) (sp : List String) (f : FileData)
    (h1 : get_safe_path root p = .ok sp)
    (h2 : lookup sp fs = some (.file f))
    (h3 : f.size ≤ MAX_FILE_SIZE)
    (h4 : text_extensions.contains (strLower (pySuffix (nameOf sp))) = true)
    (h5 : f.readOk = true) :
    (read_file root fs p).map (fun r => (r.encoding, r.is_text)) =
      .ok ("text", true) := by
  simp only [read_file, h1, h2]
  rw [if_neg (by omega)]
  simp only [h4, Bool.or_true, if_true, h5, Except.map]

theorem claim_C6_witness :
    (read_file rootFx fsFx "bad.txt").map (fun r => (r.encoding, r.is_text)) =
      .ok ("text", true) :=
  claim_C6_text_ext_reads_text rootFx fsFx "bad.txt"
    ["home", "proj", "bad.txt"] fdBadUtf rfl rfl (by decide) (by decide) rfl

/-- C7: a readable file classified binary (MIME heuristic false and suffix
not in the allow-list) is returned base64-encoded with `line_count = 0`, and
base64-decoding the returned content recovers the file's bytes exactly. -/
theorem claim_C7_binary_roundtrip (root : List String) (fs : Node)
    (p : String) (sp : List String) (f : FileData)
    (h1 : get_safe_path root p = .ok sp)
    (h2 : lookup sp fs = some (.file f))
    (h3 : f.size ≤ MAX_FILE_SIZE)
    (h4 : isTextMime f.mime = false)
    (h5 : text_extensions.contains (strLower (pySuffix (nameOf sp))) = false)
    (h6 : f.readOk = true)
    (h7 : ∀ b ∈ f.bytes, b < 256) :
    (read_file root fs p).map
        (fun r => (r.encoding, r.line_count, b64DecodeList r.content.toList)) =
      .ok ("base64", 0, some f.bytes) := by
  simp only [read_file, h1, h2]
  rw [if_neg (by omega)]
  simp at h5
  simp [h4, h5, h6, Except.map]
  exact b64_roundtrip f.bytes h7

theorem claim_C7_witness :
    (read_file rootFx fsFx "img.bin").map
        (fun r => (r.encoding, r.line_count, b64DecodeList r.content.toList)) =
      .ok ("base64", 0, some [0, 255, 16, 7]) :=
  claim_C7_binary_roundtrip rootFx fsFx "img.bin" ["home", "proj", "img.bin"]
    fdBin rfl rfl (by decide) (by decide) (by decide) rfl (by decide)

/-- C5: listing a valid directory returns files sorted ascending by name and
subdirectory names sorted ascending, with the totals equal to the lengths of
the returned lists, and every listed file's `line_count` unset (listing never
opens file contents). -/
theorem claim_C5_list_sorted (root : List String) (fs : Node) (p : String)
    (sp : List String) (d : DirData) (es : List (String × Node))
    (exts : List String) (r : ListResult)
    (h1 : get_safe_path root p = .ok sp)
    (h2 : lookup sp fs = some (.dir d es))
    (h : list_directory root fs p exts = .ok r) :
    List.Sorted entryNameLe r.files ∧
    List.Sorted strLeP r.subdirectories ∧
    r.total_files = r.files.length ∧
    r.total_directories = r.subdirectories.length ∧
    ∀ e ∈ r.files, e.line_count = none := by
  simp only [list_directory, h1, h2] at h
  injection h with h
  subst h
  refine ⟨List.sorted_insertionSort _ _, List.sorted_insertionSort _ _, rfl, rfl, ?_⟩
  intro e he
  rw [List.mem_insertionSort] at he
  obtain ⟨⟨n, node⟩, ha, hf⟩ := List.mem_filterMap.1 he
  cases node with
  | dir dd des => simp at hf
  | file f =>
    simp only at hf
    split at hf
    · simp at hf
    · injection hf with hf
      subst hf
      rfl

theorem claim_C5_witness :
    List.Sorted entryNameLe rListFx.files ∧
    List.Sorted strLeP rListFx.subdirectories ∧
    rListFx.total_files = rListFx.files.length ∧
    rListFx.total_directories = rListFx.subdirectories.length ∧
    ∀ e ∈ rListFx.files, e.line_count = none :=
  claim_C5_list_sorted rootFx fsFx "sub" ["home", "proj", "sub"]
    ⟨"2024-01-01T00:00:00", none⟩ [("b.md", .file fdText)] [] rListFx
    rfl rfl rfl

/-- C3 (amended): a successful search returns at most `max 1 max_results`
entries — at most `max_results` whenever `max_results ≥ 1`, but one entry can
be returned when `max_results = 0`, because the loop appends a match before
testing the cap — and the entries are sorted by the key
`modified_time or ""` descending, which places empty keys last, not first. -/
theorem claim_C3_search_cap_sorted (root : List String) (fs : Node)
    (p term : String) (exts : List String) (rec : Bool) (maxr : Nat)
    (r : SearchResult)
    (h : search_files root fs p term exts rec maxr = .ok r) :
    r.files.length ≤ max 1 maxr ∧ List.Sorted entryMtimeGe r.files := by
  by_cases hterm : term = ""
  · rw [hterm] at h
    simp only [search_files, if_pos rfl] at h
    exact absurd h (by simp)
  · simp only [search_files, if_neg hterm] at h
    split at h
    · exact absurd h (by simp)
    · split at h
      · exact absurd h (by simp)
      · injection h with h
        subst h
        refine ⟨?_, List.sorted_insertionSort _ _⟩
        simp only [List.length_insertionSort]
        exact searchLoop_length_le _ _ _ _ _ (Or.inr rfl)

/-- C3 (counterexample): with `max_results = 0` the search on the witness
tree still returns one entry, so the returned list is not bounded by
`max_results` as the claim states. -/
theorem claim_C3_counterexample :
    (search_files rootFx fsFx "" "a" [] false 0).map (fun r => r.files.length) =
      .ok 1 ∧ ¬ (1 : Nat) ≤ 0 := by
  constructor
  · rfl
  · decide

theorem claim_C3_witness :
    rSearchFx.files.length ≤ max 1 50 ∧ List.Sorted entryMtimeGe rSearchFx.files :=
  claim_C3_search_cap_sorted rootFx fsFx "sub" "b" [] false 50 rSearchFx rfl

/-- C10: when the confined path is a directory the candidates come from the
`"*.*"` glob, so every returned entry's name contains a dot — a dotless file
name is never a match even when the term occurs in it; when the confined
path is itself a file it is the sole candidate regardless of dots, and a
matching term returns it. -/
theorem claim_C10_glob_dot :
    (∀ (root : List String) (fs : Node) (p term : String) (exts : List String)
        (rec : Bool) (maxr : Nat) (sp : List String) (d : DirData)
        (es : List (String × Node)) (r : SearchResult),
      get_safe_path root p = .ok sp → lookup sp fs = some (.dir d es) →
      search_files root fs p term exts rec maxr = .ok r →
      ∀ e ∈ r.files, e.name.toList.contains '.' = true) ∧
    (∀ (root : List String) (fs : Node) (p term : String) (rec : Bool)
        (maxr : Nat) (sp : List String) (f : FileData),
      get_safe_path root p = .ok sp → lookup sp fs = some (.file f) →
      term ≠ "" →
      strContains (strLower (nameOf sp)) (strLower term) = true →
      (search_files root fs p term [] rec maxr).map (fun r => r.files) =
        .ok [mkSearchEntry root (sp, f)]) := by
  constructor
  · intro root fs p term exts rec maxr sp d es r h1 h2 h3 e he
    by_cases hterm : term = ""
    · rw [hterm] at h3
      simp only [search_files, if_pos rfl] at h3
      exact absurd h3 (by simp)
    · simp only [search_files, if_neg hterm, h1, h2] at h3
      injection h3 with h3
      subst h3
      rw [List.mem_insertionSort] at he
      rcases searchLoop_mem _ _ _ _ _ _ he with hacc | ⟨c, hc, hec⟩
      · simp at hacc
      · subst hec
        have hc0 : c ∈ searchCandidates sp (.dir d es) rec := by
          split at hc
          · exact (List.mem_filter.1 hc).1
          · exact hc
        exact searchCandidates_dir_dot sp d es rec c hc0
  · intro root fs p term rec maxr sp f h1 h2 hterm hmatch
    simp only [search_files, if_neg hterm, h1, h2, searchCandidates]
    rw [if_neg (by simp)]
    rw [searchLoop_single root (strLower term) maxr (sp, f) hmatch]
    simp [List.insertionSort, List.orderedInsert, Except.map]

theorem claim_C10_witness :
    (∀ e ∈ rSearchFx.files, e.name.toList.contains '.' = true) ∧
    (search_files rootFx fsFx "README" "read" [] false 50).map
        (fun r => r.files) =
      .ok [mkSearchEntry rootFx (["home", "proj", "README"], fdNoDot)] :=
  ⟨claim_C10_glob_dot.1 rootFx fsFx "sub" "b" [] false 50
      ["home", "proj", "sub"] ⟨"2024-01-01T00:00:00", none⟩
      [("b.md", .file fdText)] rSearchFx rfl rfl rfl,
    claim_C10_glob_dot.2 rootFx fsFx "README" "read" false 50
      ["home", "proj", "README"] fdNoDot rfl rfl (by decide) (by decide)⟩
